import Mathlib

/-!
Shallow embedding of `src/credentials.py`: the credential namespace manager
(class `credentials`) over an AWS Secrets Manager style backend, and the
typed credential lookup (`load_credentials`) over a DynamoDB style table.

Modelling conventions:
  - Python dicts (payloads, the backend's secret table, DynamoDB records) are
    insertion-ordered association lists; `alGet` is `d[k]` (first match) and
    `alSet` is `d[k] = v` (replace in place, else append), exactly Python's
    dict semantics for string keys.
  - `str(payload)` / `eval(secret)` serialization: a stored secret string is
    either the literal one-space sentinel `' '` written by `clear`, or
    `str(d)` for a dict `d`; since `str(d)` of a dict never equals `' '` and
    `eval(str(d)) == d`, the stored string is modelled by the sum type
    `SecretVal` with constructors `blank` and `payload`.
  - `datetime.now()` and `getpass.getuser()` are nondeterministic inputs of
    the process; they are passed as explicit `time`/`user` string arguments
    (one `time` argument per `str(datetime.now())` call site).
  - `str.lower()` is `lowerStr` (per-character `Char.toLower`, which agrees
    with Python on ASCII identifiers), `s.split('/')` is `splitSlash`, and
    Python string comparison (used by `sorted`) is the code-point
    lexicographic order `strLe`; `sorted(...)` is `sortStrings`
    (an insertion sort, extensionally Python's stable ascending sort).
  - `list_secrets` pagination: the backend listing is a list of pages
    (each a list of secret names); a continuation token is the list of
    pages that remain.  The first response carries a token exactly when at
    least one further page exists, as in the AWS API.
  - Exceptions are `Except.error` values of the `Err` type below, one
    constructor per distinct raise site / botocore error kind.
-/

namespace Creds

/-- Python dict read `d[k]` on an association list: first binding wins. -/
def alGet {α : Type} : List (String × α) → String → Option α
  | [], _ => none
  | (k, v) :: rest, key => if k = key then some v else alGet rest key

/-- Python dict write `d[k] = v`: replace the first binding for `k` in
place, or append a new binding at the end. -/
def alSet {α : Type} : List (String × α) → String → α → List (String × α)
  | [], key, v => [(key, v)]
  | (k, w) :: rest, key, v =>
    if k = key then (key, v) :: rest else (k, w) :: alSet rest key v

/-- Python `str.lower()` applied to our identifier strings. -/
def lowerStr (s : String) : String := String.mk (s.data.map Char.toLower)

/-- Code-point lexicographic comparison of char lists, as Python compares
strings. -/
def lexLe : List Char → List Char → Bool
  | [], _ => true
  | _ :: _, [] => false
  | a :: as, b :: bs =>
    if a.toNat < b.toNat then true
    else if b.toNat < a.toNat then false
    else lexLe as bs

/-- Python `<=` on strings. -/
def strLe (a b : String) : Bool := lexLe a.data b.data

/-- Helper of `splitSlash`: walk the characters, cutting at each `/`. -/
def splitSlashAux : List Char → List Char → List String
  | [], acc => [String.mk acc.reverse]
  | c :: cs, acc =>
    if c = ('/') then String.mk acc.reverse :: splitSlashAux cs []
    else splitSlashAux cs (c :: acc)

/-- Python `s.split('/')` (credentials.py line 200). -/
def splitSlash (s : String) : List String := splitSlashAux s.data []

/-- A payload dictionary: string keys to string values (credential fields
are opaque to the manager, so values are modelled as strings). -/
abbrev Payload := List (String × String)

/-- The stored secret string: the one-space sentinel written by `clear`,
or the `str(...)` serialization of a payload dict. -/
inductive SecretVal where
  | blank : SecretVal
  | payload : List (String × String) → SecretVal

/-- The backend secret store: identifiers to stored strings. -/
abbrev Store := List (String × SecretVal)

/-- Exception kinds raised by credentials.py, one constructor per distinct
raise site or botocore error. -/
inductive Err where
  | resourceExists : String → Err
  | resourceNotFound : String → Err
  | emptyPayload : String → Err
  | noOpRename : Err
  | sourceEmpty : Err
  | nextTokenMissing : Err
  | splitMismatch : Err

/-- Identifier built without case normalization, as in `get`, `clear`,
`update` and `rename` (f-string `account/protocol/name`). -/
def mkKeyRaw (account protocol name : String) : String :=
  account ++ ("/") ++ protocol ++ ("/") ++ name

/-- Identifier built by `add` (credentials.py line 66): each field is
lowercased before joining. -/
def mkKeyLower (account protocol name : String) : String :=
  mkKeyRaw (lowerStr account) (lowerStr protocol) (lowerStr name)

/-- The audit stamping done on every add/update/rename write:
`payload[last_modified_by] = user; payload[last_modified_time] = time`. -/
def stamp (user time : String) (payload : Payload) : Payload :=
  alSet (alSet payload ("last_modified_by") user) ("last_modified_time") time

/-- The message of the KeyError raised by `get` on a cleared secret
(credentials.py line 106). -/
def emptyMsg (key : String) : String :=
  ("Namespace exists, but the payload is empty.  Please update ") ++ key ++
  (" with current credentials.")

/-- credentials.add (lines 50-71): lowercased key, payload type check
(always satisfied here since the argument is a dict by type), audit
stamping, then `create_secret`, which fails when the key exists. -/
def add (st : Store) (user time account protocol name : String)
    (payload : Payload) : Except Err Unit × Store :=
  match alGet st (mkKeyLower account protocol name) with
  | some _ => (Except.error (Err.resourceExists (mkKeyLower account protocol name)), st)
  | none =>
    (Except.ok (), alSet st (mkKeyLower account protocol name)
      (SecretVal.payload (stamp user time payload)))

/-- credentials.clear (lines 73-88): raw key, `update_secret` with the
one-space sentinel; fails when the key was never created. -/
def clear (st : Store) (account protocol name : String) :
    Except Err Unit × Store :=
  match alGet st (mkKeyRaw account protocol name) with
  | none => (Except.error (Err.resourceNotFound (mkKeyRaw account protocol name)), st)
  | some _ => (Except.ok (), alSet st (mkKeyRaw account protocol name) SecretVal.blank)

/-- credentials.get (lines 90-108): raw key, `get_secret_value`; a missing
key is the backend's ResourceNotFound, the sentinel raises the KeyError
with `emptyMsg`, otherwise the payload is deserialized and returned. -/
def get (st : Store) (account protocol name : String) : Except Err Payload :=
  match alGet st (mkKeyRaw account protocol name) with
  | none => Except.error (Err.resourceNotFound (mkKeyRaw account protocol name))
  | some SecretVal.blank =>
    Except.error (Err.emptyPayload (emptyMsg (mkKeyRaw account protocol name)))
  | some (SecretVal.payload p) => Except.ok p

/-- credentials.update (lines 217-236): raw key (NOT lowercased), audit
stamping, `update_secret`; fails when the key was never created. -/
def update (st : Store) (user time account protocol name : String)
    (payload : Payload) : Except Err Unit × Store :=
  match alGet st (mkKeyRaw account protocol name) with
  | none => (Except.error (Err.resourceNotFound (mkKeyRaw account protocol name)), st)
  | some _ =>
    (Except.ok (), alSet st (mkKeyRaw account protocol name)
      (SecretVal.payload (stamp user time payload)))

/-- credentials.rename (lines 153-179): raises when the triplets agree in
all three fields, reads the source at the raw key, rejects the sentinel,
re-stamps, tries `add` at the new (lowercased) key and on any exception
falls back to `update` at the new raw key, finally clears the source.
`time1`/`time2`/`time3` are the three `datetime.now()` call sites (the
rename body, the inner add, the inner update). -/
def rename (st : Store)
    (user time1 time2 time3 oldAccount oldProtocol oldName
     newAccount newProtocol newName : String) : Except Err Unit × Store :=
  if oldAccount = newAccount ∧ oldProtocol = newProtocol ∧ oldName = newName then
    (Except.error Err.noOpRename, st)
  else
    match alGet st (mkKeyRaw oldAccount oldProtocol oldName) with
    | none => (Except.error (Err.resourceNotFound (mkKeyRaw oldAccount oldProtocol oldName)), st)
    | some SecretVal.blank => (Except.error Err.sourceEmpty, st)
    | some (SecretVal.payload p) =>
      match add st user time2 newAccount newProtocol newName (stamp user time1 p) with
      | (Except.ok _, st1) => clear st1 oldAccount oldProtocol oldName
      | (Except.error _, _) =>
        match update st user time3 newAccount newProtocol newName (stamp user time1 p) with
        | (Except.ok _, st2) => clear st2 oldAccount oldProtocol oldName
        | (Except.error e, st2) => (Except.error e, st2)

/-- One `list_secrets` response: the page of names and the continuation
token, present exactly when further pages remain; a token is modelled as
the list of remaining pages. -/
def pageOf : List (List String) → List String × Option (List (List String))
  | [] => ([], none)
  | p :: rest => (p, if rest.isEmpty then none else some rest)

/-- The `while NextToken in next_page` loop of list_all plus the final
append (credentials.py lines 119-125): every fetched page is appended,
the last page (no token) after the loop exits. -/
def drainLoop : List (List String) → List String
  | [] => []
  | [p] => p
  | p :: q :: rest => p ++ drainLoop (q :: rest)

/-- Python `sorted(...)` on strings: ascending code-point lexicographic. -/
def sortStrings (l : List String) : List String :=
  List.insertionSort (fun a b => strLe a b = true) l

/-- credentials.list_all (lines 110-127): collect the first page, then
unconditionally read `first_page['NextToken']` (a KeyError when the first
response has no token), drain the remaining pages, and sort. -/
def list_all (pages : List (List String)) : Except Err (List String) :=
  match (pageOf pages).2 with
  | none => Except.error Err.nextTokenMissing
  | some rest => Except.ok (sortStrings ((pageOf pages).1 ++ drainLoop rest))

/-- The per-secret filter match of credentials.search (lines 202-209): a
`None` filter masks the corresponding split field, then all three are
compared for equality. -/
def matchesFilters (fa fp fn : Option String) (a b c : String) : Bool :=
  (match fa with | none => true | some x => a == x) &&
  (match fp with | none => true | some x => b == x) &&
  (match fn with | none => true | some x => c == x)

/-- The loop of credentials.search over the listed identifiers: each is
split on `/` and unpacked into exactly three fields (a ValueError
otherwise), and the matching triplets are collected (the code prints a
ready-made `get(...)` line per match; we model the matched triplets). -/
def searchIds (fa fp fn : Option String) :
    List String → Except Err (List (String × String × String))
  | [] => Except.ok []
  | s :: rest =>
    match splitSlash s with
    | [a, b, c] =>
      match searchIds fa fp fn rest with
      | Except.error e => Except.error e
      | Except.ok l =>
        Except.ok (if matchesFilters fa fp fn a b c then (a, b, c) :: l else l)
    | _ => Except.error Err.splitMismatch

/-- credentials.search (lines 181-215): list every identifier via
`list_all`, then filter; no payload is ever read (the whole operation is
a function of the listing alone). -/
def search (pages : List (List String)) (account protocol name : Option String) :
    Except Err (List (String × String × String)) :=
  match list_all pages with
  | Except.error e => Except.error e
  | Except.ok ids => searchIds account protocol name ids

/-- A DynamoDB attribute value as seen by load_credentials: a string, a
number, or a nested map. -/
inductive JVal where
  | str : String → JVal
  | num : Int → JVal
  | obj : List (String × JVal) → JVal

/-- Python `int(x)` as applied to a `port` attribute: numbers pass
through, numeric strings are parsed, anything else raises. -/
def pyInt : JVal → Option Int
  | JVal.num n => some n
  | JVal.str s => s.toInt?
  | JVal.obj _ => none

/-- Lines 27-28 of load_credentials: `if port in cred.keys():
cred[port] = int(cred[port])`; `.keys()` on a non-dict raises, a
non-convertible port value raises, both caught by the generic handler. -/
def coercePort : JVal → Option JVal
  | JVal.obj kvs =>
    match alGet kvs ("port") with
    | none => some (JVal.obj kvs)
    | some v =>
      match pyInt v with
      | none => none
      | some i => some (JVal.obj (alSet kvs ("port") (JVal.num i)))
  | _ => none

/-- The branch ladder of load_credentials (lines 20-25): protocol set and
name `all` selects `Item[protocol]`; protocol and name both set selects
`Item[protocol][name]`; otherwise (protocol `all`, whatever name) the
whole Item is selected.  A missing key or a subscript of a non-dict
raises, caught by the generic handler. -/
def selectCred (item : List (String × JVal)) (protocol name : String) : Option JVal :=
  if protocol ≠ ("all") ∧ name = ("all") then alGet item protocol
  else if protocol ≠ ("all") ∧ name ≠ ("all") then
    match alGet item protocol with
    | some (JVal.obj sub) => alGet sub name
    | _ => none
  else some (JVal.obj item)

/-- The message of the generic exception raised by load_credentials. -/
def loadErrMsg : String :=
  ("Could not load credentials for the specified client.  Verify the client you are trying to load.")

/-- The result of load_credentials: a single credential value, or the
full `table.scan()` item list when client is `all`. -/
inductive LoadResult where
  | cred : JVal → LoadResult
  | items : List JVal → LoadResult

/-- load_credentials (credentials.py lines 10-35) over a table mapping
client keys to records: `get_item`, the branch ladder, the port coercion,
with every failure in the try block surfaced as the one generic message;
`client = all` scans and returns every record. -/
def load_credentials (table : List (String × List (String × JVal)))
    (client protocol name : String) : Except String LoadResult :=
  if client ≠ ("all") then
    match alGet table client with
    | none => Except.error loadErrMsg
    | some item =>
      match selectCred item protocol name with
      | none => Except.error loadErrMsg
      | some cred =>
        match coercePort cred with
        | none => Except.error loadErrMsg
        | some c => Except.ok (LoadResult.cred c)
  else Except.ok (LoadResult.items (table.map (fun kv => JVal.obj kv.2)))

/-- Reading back an association list after a write: the written key returns
the new value, every other key is unaffected. -/
theorem alGet_alSet {α : Type} (d : List (String × α)) (key k : String) (v : α) :
    alGet (alSet d key v) k = if key = k then some v else alGet d k := by
  induction d with
  | nil => simp [alGet, alSet]
  | cons hd tl ih =>
    obtain ⟨k0, w⟩ := hd
    by_cases h0 : k0 = key
    · subst h0
      by_cases hk : k0 = k
      · subst hk
        simp [alSet, alGet]
      · simp [alSet, alGet, hk]
    · by_cases hk : k0 = k
      · subst hk
        have hkey : ¬ key = k0 := fun h => h0 h.symm
        simp [alSet, alGet, h0, hkey]
      · simp [alSet, alGet, h0, hk, ih]

/-- Field lookup in a stamped payload: the two audit fields take the
stamped values, every other field reads from the original payload. -/
theorem alGet_stamp (user time : String) (m : Payload) (k : String) :
    alGet (stamp user time m) k =
      if ("last_modified_time") = k then some time
      else if ("last_modified_by") = k then some user
      else alGet m k := by
  simp only [stamp, alGet_alSet]

/-- add on a fresh (lowercased) identifier creates the stamped payload. -/
theorem add_absent (st : Store) (u t a p n : String) (m : Payload)
    (h : alGet st (mkKeyLower a p n) = none) :
    add st u t a p n m =
      (Except.ok (), alSet st (mkKeyLower a p n) (SecretVal.payload (stamp u t m))) := by
  simp [add, h]

/-- add on an existing (lowercased) identifier fails and writes nothing. -/
theorem add_present (st : Store) (u t a p n : String) (m : Payload) (v : SecretVal)
    (h : alGet st (mkKeyLower a p n) = some v) :
    add st u t a p n m = (Except.error (Err.resourceExists (mkKeyLower a p n)), st) := by
  simp [add, h]

/-- update on an existing raw identifier overwrites it with the stamped
payload. -/
theorem update_present (st : Store) (u t a p n : String) (m : Payload) (v : SecretVal)
    (h : alGet st (mkKeyRaw a p n) = some v) :
    update st u t a p n m =
      (Except.ok (), alSet st (mkKeyRaw a p n) (SecretVal.payload (stamp u t m))) := by
  simp [update, h]

/-- update on a never-created raw identifier fails and writes nothing. -/
theorem update_absent (st : Store) (u t a p n : String) (m : Payload)
    (h : alGet st (mkKeyRaw a p n) = none) :
    update st u t a p n m = (Except.error (Err.resourceNotFound (mkKeyRaw a p n)), st) := by
  simp [update, h]

/-- clear on an existing raw identifier stores the sentinel. -/
theorem clear_present (st : Store) (a p n : String) (v : SecretVal)
    (h : alGet st (mkKeyRaw a p n) = some v) :
    clear st a p n = (Except.ok (), alSet st (mkKeyRaw a p n) SecretVal.blank) := by
  simp [clear, h]

/-- clear on a never-created raw identifier fails and writes nothing. -/
theorem clear_absent (st : Store) (a p n : String)
    (h : alGet st (mkKeyRaw a p n) = none) :
    clear st a p n = (Except.error (Err.resourceNotFound (mkKeyRaw a p n)), st) := by
  simp [clear, h]

/-- get on a never-created raw identifier fails with the backend
ResourceNotFound. -/
theorem get_none (st : Store) (a p n : String)
    (h : alGet st (mkKeyRaw a p n) = none) :
    get st a p n = Except.error (Err.resourceNotFound (mkKeyRaw a p n)) := by
  simp [get, h]

/-- get on the sentinel fails with the EmptyPayload KeyError. -/
theorem get_blank (st : Store) (a p n : String)
    (h : alGet st (mkKeyRaw a p n) = some SecretVal.blank) :
    get st a p n = Except.error (Err.emptyPayload (emptyMsg (mkKeyRaw a p n))) := by
  simp [get, h]

/-- get on a stored payload deserializes and returns it. -/
theorem get_payload (st : Store) (a p n : String) (m : Payload)
    (h : alGet st (mkKeyRaw a p n) = some (SecretVal.payload m)) :
    get st a p n = Except.ok m := by
  simp [get, h]

/-- The code-point order on char lists is total. -/
theorem lexLe_total : ∀ as bs : List Char, lexLe as bs = true ∨ lexLe bs as = true
  | [], _ => Or.inl rfl
  | _ :: _, [] => Or.inr rfl
  | a :: as, b :: bs => by
    by_cases h1 : a.toNat < b.toNat
    · left
      simp [lexLe, h1]
    · by_cases h2 : b.toNat < a.toNat
      · right
        simp [lexLe, h2]
      · rcases lexLe_total as bs with h | h
        · left
          simp [lexLe, h1, h2, h]
        · right
          simp [lexLe, h1, h2, h]

/-- The code-point order on char lists is transitive. -/
theorem lexLe_trans : ∀ as bs cs : List Char,
    lexLe as bs = true → lexLe bs cs = true → lexLe as cs = true
  | [], _, _ => by
    intro _ _
    rfl
  | _ :: _, [], _ => by
    intro h _
    exact absurd h (by simp [lexLe])
  | _ :: _, _ :: _, [] => by
    intro _ h
    exact absurd h (by simp [lexLe])
  | a :: as, b :: bs, c :: cs => by
    intro h1 h2
    simp only [lexLe] at h1 h2 ⊢
    split_ifs at h1 with hab hba <;> split_ifs at h2 with hbc hcb <;>
      split_ifs with hac hca <;>
      first
        | rfl
        | omega
        | exact lexLe_trans as bs cs h1 h2

/-- Totality of the Python string order. -/
theorem strLe_total (a b : String) : strLe a b = true ∨ strLe b a = true :=
  lexLe_total a.data b.data

/-- Transitivity of the Python string order. -/
theorem strLe_trans (a b c : String) :
    strLe a b = true → strLe b c = true → strLe a c = true :=
  lexLe_trans a.data b.data c.data

/-- The sort used by list_all produces a list sorted in the Python string
order. -/
theorem sortStrings_sorted (l : List String) :
    List.Sorted (fun a b => strLe a b = true) (sortStrings l) :=
  @List.sorted_insertionSort String (fun a b => strLe a b = true) _
    ⟨fun a b => strLe_total a b⟩ ⟨fun a b c => strLe_trans a b c⟩ l

/-- The sort used by list_all permutes its input. -/
theorem sortStrings_perm (l : List String) : (sortStrings l).Perm l :=
  List.perm_insertionSort _ l

/-- The pagination loop appends exactly the concatenation of the remaining
pages. -/
theorem drainLoop_eq_flatten : ∀ ps : List (List String), drainLoop ps = ps.flatten
  | [] => rfl
  | [_] => by simp [drainLoop]
  | p :: q :: rest => by
    simp [drainLoop, drainLoop_eq_flatten (q :: rest)]

/-- list_all on a listing of at least two pages returns the sorted
concatenation of all pages. -/
theorem list_all_ok (p q0 : List String) (qs : List (List String)) :
    list_all (p :: q0 :: qs) = Except.ok (sortStrings ((p :: q0 :: qs).flatten)) := by
  simp [list_all, pageOf, drainLoop_eq_flatten]

/-- Field lookup after stamping twice with the same user (as rename does:
its own stamp, then the inner add or update stamp): the later time wins,
other fields read from the original payload. -/
theorem alGet_stamp_stamp (u t1 tw : String) (m : Payload) (k : String) :
    alGet (stamp u tw (stamp u t1 m)) k =
      if ("last_modified_time") = k then some tw
      else if ("last_modified_by") = k then some u
      else alGet m k := by
  simp only [alGet_stamp]
  split_ifs <;> rfl

/-- The search loop on identifiers that all split into exactly three
fields returns the sublist of triplets passing the filters. -/
theorem searchIds_ok (fa fp fn : Option String) :
    ∀ ids : List String,
      (∀ s, s ∈ ids → ∃ a b c, splitSlash s = [a, b, c]) →
      ∃ l, searchIds fa fp fn ids = Except.ok l ∧
        ∀ t : String × String × String,
          t ∈ l ↔ ∃ s, s ∈ ids ∧ splitSlash s = [t.1, t.2.1, t.2.2] ∧
            matchesFilters fa fp fn t.1 t.2.1 t.2.2 = true
  | [], _ => ⟨[], rfl, by simp⟩
  | s :: rest, h => by
    obtain ⟨a, b, c, hsplit⟩ := h s (by simp)
    obtain ⟨l, hl, hmem⟩ := searchIds_ok fa fp fn rest (fun s2 hs2 => h s2 (by simp [hs2]))
    refine ⟨if matchesFilters fa fp fn a b c then (a, b, c) :: l else l, ?_, ?_⟩
    · simp [searchIds, hsplit, hl]
    · intro t
      by_cases hm : matchesFilters fa fp fn a b c = true
      · rw [if_pos hm]
        constructor
        · intro ht
          rcases List.mem_cons.mp ht with h1 | h1
          · subst h1
            exact ⟨s, by simp, hsplit, hm⟩
          · obtain ⟨s2, hs2, hsp2, hm2⟩ := (hmem t).mp h1
            exact ⟨s2, by simp [hs2], hsp2, hm2⟩
        · rintro ⟨s2, hs2, hsp2, hm2⟩
          rcases List.mem_cons.mp hs2 with h1 | h1
          · subst h1
            rw [hsplit] at hsp2
            obtain ⟨e1, e2, e3⟩ : a = t.1 ∧ b = t.2.1 ∧ c = t.2.2 := by
              simpa using hsp2
            subst e1
            subst e2
            subst e3
            exact List.mem_cons_self _ _
          · exact List.mem_cons_of_mem _ ((hmem t).mpr ⟨s2, h1, hsp2, hm2⟩)
      · rw [if_neg hm]
        rw [hmem t]
        constructor
        · rintro ⟨s2, hs2, hsp2, hm2⟩
          exact ⟨s2, by simp [hs2], hsp2, hm2⟩
        · rintro ⟨s2, hs2, hsp2, hm2⟩
          rcases List.mem_cons.mp hs2 with h1 | h1
          · subst h1
            rw [hsplit] at hsp2
            obtain ⟨e1, e2, e3⟩ : a = t.1 ∧ b = t.2.1 ∧ c = t.2.2 := by
              simpa using hsp2
            rw [e1, e2, e3] at hm
            exact absurd hm2 hm
          · exact ⟨s2, h1, hsp2, hm2⟩

/-- rename when the destination's lowercased identifier is free: the inner
add creates it with the doubly stamped payload, then the source is
cleared. -/
theorem rename_via_add (st : Store) (u t1 t2 t3 o p n o2 p2 n2 : String) (m1 : Payload)
    (hne : ¬(o = o2 ∧ p = p2 ∧ n = n2))
    (hsrc : alGet st (mkKeyRaw o p n) = some (SecretVal.payload m1))
    (hfree : alGet st (mkKeyLower o2 p2 n2) = none)
    (hkne : mkKeyRaw o p n ≠ mkKeyLower o2 p2 n2) :
    rename st u t1 t2 t3 o p n o2 p2 n2 =
      (Except.ok (), alSet (alSet st (mkKeyLower o2 p2 n2)
        (SecretVal.payload (stamp u t2 (stamp u t1 m1)))) (mkKeyRaw o p n) SecretVal.blank) := by
  have hclr : alGet (alSet st (mkKeyLower o2 p2 n2)
      (SecretVal.payload (stamp u t2 (stamp u t1 m1)))) (mkKeyRaw o p n) =
      some (SecretVal.payload m1) := by
    rw [alGet_alSet, if_neg (fun h => hkne h.symm)]
    exact hsrc
  unfold rename
  rw [if_neg hne]
  simp only [hsrc, add_absent st u t2 o2 p2 n2 (stamp u t1 m1) hfree,
    clear_present _ o p n (SecretVal.payload m1) hclr]

/-- rename when the destination's lowercased identifier exists but the raw
one does too: the inner add fails, the update fallback overwrites the raw
destination with the doubly stamped payload, then the source is cleared. -/
theorem rename_via_update (st : Store) (u t1 t2 t3 o p n o2 p2 n2 : String)
    (m1 : Payload) (v w : SecretVal)
    (hne : ¬(o = o2 ∧ p = p2 ∧ n = n2))
    (hsrc : alGet st (mkKeyRaw o p n) = some (SecretVal.payload m1))
    (hpresL : alGet st (mkKeyLower o2 p2 n2) = some v)
    (hpresR : alGet st (mkKeyRaw o2 p2 n2) = some w)
    (hkne : mkKeyRaw o p n ≠ mkKeyRaw o2 p2 n2) :
    rename st u t1 t2 t3 o p n o2 p2 n2 =
      (Except.ok (), alSet (alSet st (mkKeyRaw o2 p2 n2)
        (SecretVal.payload (stamp u t3 (stamp u t1 m1)))) (mkKeyRaw o p n) SecretVal.blank) := by
  have hclr : alGet (alSet st (mkKeyRaw o2 p2 n2)
      (SecretVal.payload (stamp u t3 (stamp u t1 m1)))) (mkKeyRaw o p n) =
      some (SecretVal.payload m1) := by
    rw [alGet_alSet, if_neg (fun h => hkne h.symm)]
    exact hsrc
  unfold rename
  rw [if_neg hne]
  simp only [hsrc, add_present st u t2 o2 p2 n2 (stamp u t1 m1) v hpresL,
    update_present st u t3 o2 p2 n2 (stamp u t1 m1) w hpresR,
    clear_present _ o p n (SecretVal.payload m1) hclr]

/-- rename when the destination's lowercased identifier exists but the raw
one does not: the inner add fails, the update fallback fails with
ResourceNotFound, and the error propagates with the store untouched. -/
theorem rename_dest_raw_missing (st : Store) (u t1 t2 t3 o p n o2 p2 n2 : String)
    (m1 : Payload) (v : SecretVal)
    (hne : ¬(o = o2 ∧ p = p2 ∧ n = n2))
    (hsrc : alGet st (mkKeyRaw o p n) = some (SecretVal.payload m1))
    (hpresL : alGet st (mkKeyLower o2 p2 n2) = some v)
    (habsR : alGet st (mkKeyRaw o2 p2 n2) = none) :
    rename st u t1 t2 t3 o p n o2 p2 n2 =
      (Except.error (Err.resourceNotFound (mkKeyRaw o2 p2 n2)), st) := by
  unfold rename
  rw [if_neg hne]
  simp only [hsrc, add_present st u t2 o2 p2 n2 (stamp u t1 m1) v hpresL,
    update_absent st u t3 o2 p2 n2 (stamp u t1 m1) habsR]

/-- C4: for every store and every triplet, rename called with source and
destination identical in all three fields fails with the NoOpRename
KeyError; the failure is raised before any backend call, so the store is
returned completely unchanged. -/
theorem C4_rename_noop (st : Store) (u t1 t2 t3 a p n : String) :
    rename st u t1 t2 t3 a p n a p n = (Except.error Err.noOpRename, st) := by
  simp [rename]

/-- C5: get on an identifier holding the sentinel (exactly what clear
leaves behind) fails with the EmptyPayload KeyError, whose message tells
the caller to update the identifier; and this failure is distinct from
the ResourceNotFound failure raised when the identifier was never
created. -/
theorem C5_empty_vs_notfound (st : Store) (a p n : String) :
    (∀ v, alGet st (mkKeyRaw a p n) = some v →
      clear st a p n = (Except.ok (), alSet st (mkKeyRaw a p n) SecretVal.blank) ∧
      get (alSet st (mkKeyRaw a p n) SecretVal.blank) a p n =
        Except.error (Err.emptyPayload (emptyMsg (mkKeyRaw a p n)))) ∧
    (alGet st (mkKeyRaw a p n) = some SecretVal.blank →
      get st a p n = Except.error (Err.emptyPayload (emptyMsg (mkKeyRaw a p n)))) ∧
    (alGet st (mkKeyRaw a p n) = none →
      get st a p n = Except.error (Err.resourceNotFound (mkKeyRaw a p n))) ∧
    emptyMsg (mkKeyRaw a p n) =
      ("Namespace exists, but the payload is empty.  Please update ") ++
        (mkKeyRaw a p n) ++ (" with current credentials.") ∧
    (∀ msg key, Err.emptyPayload msg ≠ Err.resourceNotFound key) := by
  refine ⟨?_, get_blank st a p n, get_none st a p n, rfl, ?_⟩
  · intro v hv
    refine ⟨clear_present st a p n v hv, ?_⟩
    apply get_blank
    simp [alGet_alSet]
  · intro msg key h
    exact Err.noConfusion h

/-- C5 witness: a store holding the sentinel at o/p/n, and clear followed
by get on it, against the empty store where the same get reports
ResourceNotFound. -/
theorem C5_empty_vs_notfound_witness :
    (clear [(("o/p/n"), SecretVal.payload [])] ("o") ("p") ("n") =
      (Except.ok (), alSet [(("o/p/n"), SecretVal.payload [])] (mkKeyRaw ("o") ("p") ("n")) SecretVal.blank) ∧
     get (alSet [(("o/p/n"), SecretVal.payload [])] (mkKeyRaw ("o") ("p") ("n")) SecretVal.blank) ("o") ("p") ("n") =
      Except.error (Err.emptyPayload (emptyMsg (mkKeyRaw ("o") ("p") ("n"))))) ∧
    get ([] : Store) ("o") ("p") ("n") =
      Except.error (Err.resourceNotFound (mkKeyRaw ("o") ("p") ("n"))) :=
  ⟨(C5_empty_vs_notfound [(("o/p/n"), SecretVal.payload [])] ("o") ("p") ("n")).1
      (SecretVal.payload []) rfl,
   (C5_empty_vs_notfound ([] : Store) ("o") ("p") ("n")).2.2.1 rfl⟩

/-- C10: when the first list response carries no continuation token (the
whole listing fits in a single page, or the store is empty), list_all
raises the NextToken KeyError instead of returning the identifiers,
because it unconditionally reads the first page's token. -/
theorem C10_single_page_raises (pages : List (List String))
    (h : (pageOf pages).2 = none) :
    list_all pages = Except.error Err.nextTokenMissing := by
  simp [list_all, h]

/-- C10 witness: a backend whose only page lists one identifier. -/
theorem C10_single_page_raises_witness :
    (pageOf [[("a/p/n")]]).2 = none ∧
    list_all [[("a/p/n")]] = Except.error Err.nextTokenMissing :=
  ⟨rfl, C10_single_page_raises [[("a/p/n")]] rfl⟩

/-- C7 counterexample: a backend whose complete listing fits in one page;
the claim promises the sorted identifiers for every backend state, but
list_all raises the NextToken KeyError. -/
theorem C7_single_page_cex :
    list_all [[("b/p/n"), ("a/p/n")]] = Except.error Err.nextTokenMissing := rfl

/-- C7 (amended): for every backend whose listing spans at least two pages
(the first response carries a continuation token), list_all drains the
pagination and returns a sequence that is sorted in the code-point
lexicographic string order, contains exactly the identifiers of all
pages, and is duplicate-free whenever the combined backend listing is. -/
theorem C7_list_all_multi_page (p q0 : List String) (qs : List (List String)) :
    ∃ l, list_all (p :: q0 :: qs) = Except.ok l ∧
      List.Sorted (fun a b => strLe a b = true) l ∧
      (∀ s, s ∈ l ↔ s ∈ (p :: q0 :: qs).flatten) ∧
      ((p :: q0 :: qs).flatten.Nodup → l.Nodup) := by
  refine ⟨sortStrings ((p :: q0 :: qs).flatten), list_all_ok p q0 qs,
    sortStrings_sorted _, ?_, ?_⟩
  · intro s
    exact (sortStrings_perm _).mem_iff
  · intro h
    exact (sortStrings_perm _).symm.nodup h

/-- C7 witness: a three-page listing, as in the spec's suggested
simulation. -/
theorem C7_list_all_multi_page_witness :
    ∃ l, list_all [[("b/db/x")], [("a/db/y")], [("c/db/z")]] = Except.ok l ∧
      List.Sorted (fun a b => strLe a b = true) l ∧
      (∀ s, s ∈ l ↔ s ∈ ([[("b/db/x")], [("a/db/y")], [("c/db/z")]] : List (List String)).flatten) ∧
      (([[("b/db/x")], [("a/db/y")], [("c/db/z")]] : List (List String)).flatten.Nodup → l.Nodup) :=
  C7_list_all_multi_page [("b/db/x")] [("a/db/y")] [[("c/db/z")]]

/-- C1 counterexample: owner string Alice (one uppercase letter).  add
succeeds, storing under the lowercased identifier alice/p/n, but get with
the very same argument strings reads the raw identifier Alice/p/n and
fails with ResourceNotFound instead of returning the payload plus audit
fields. -/
theorem C1_case_mismatch_cex :
    (add ([] : Store) ("u") ("t") ("Alice") ("p") ("n") []).1 = Except.ok () ∧
    get (add ([] : Store) ("u") ("t") ("Alice") ("p") ("n") []).2 ("Alice") ("p") ("n") =
      Except.error (Err.resourceNotFound ("Alice/p/n")) :=
  ⟨rfl, rfl⟩

/-- C1 (amended): for triplets whose three fields are already lowercase
(so the write and read paths agree on the identifier) and whose
identifier is not yet stored, add followed by get with the same argument
strings succeeds and returns exactly the input mapping plus the two
injected audit fields last_modified_by and last_modified_time. -/
theorem C1_add_get_roundtrip (st : Store) (u t o p n : String) (m : Payload)
    (ho : lowerStr o = o) (hp : lowerStr p = p) (hn : lowerStr n = n)
    (hfree : alGet st (mkKeyRaw o p n) = none) :
    ∃ st2, add st u t o p n m = (Except.ok (), st2) ∧
      get st2 o p n = Except.ok (stamp u t m) ∧
      ∀ k, alGet (stamp u t m) k =
        if ("last_modified_time") = k then some t
        else if ("last_modified_by") = k then some u
        else alGet m k := by
  have hkey : mkKeyLower o p n = mkKeyRaw o p n := by
    simp [mkKeyLower, ho, hp, hn]
  refine ⟨alSet st (mkKeyRaw o p n) (SecretVal.payload (stamp u t m)), ?_, ?_, ?_⟩
  · rw [add_absent st u t o p n m (by rw [hkey]; exact hfree), hkey]
  · apply get_payload
    simp [alGet_alSet]
  · intro k
    exact alGet_stamp u t m k

/-- C1 witness: an all-lowercase triplet on the empty store. -/
theorem C1_add_get_roundtrip_witness :
    ∃ st2, add ([] : Store) ("u") ("t") ("owner") ("db") ("prod") [(("host"), ("h"))] =
        (Except.ok (), st2) ∧
      get st2 ("owner") ("db") ("prod") = Except.ok (stamp ("u") ("t") [(("host"), ("h"))]) ∧
      ∀ k, alGet (stamp ("u") ("t") [(("host"), ("h"))]) k =
        if ("last_modified_time") = k then some ("t")
        else if ("last_modified_by") = k then some ("u")
        else alGet [(("host"), ("h"))] k :=
  C1_add_get_roundtrip [] ("u") ("t") ("owner") ("db") ("prod") [(("host"), ("h"))]
    rfl rfl rfl rfl

/-- C2 counterexample: the store holds the lowercased identifier
alice/p/n only; update called with owner Alice targets the raw identifier
Alice/p/n and fails with ResourceNotFound, so the identifier update
constructs is not the lowercased one add constructs. -/
theorem C2_update_not_lowercased_cex :
    update [(("alice/p/n"), SecretVal.blank)] ("u") ("t") ("Alice") ("p") ("n") [] =
      (Except.error (Err.resourceNotFound ("Alice/p/n")), [(("alice/p/n"), SecretVal.blank)]) ∧
    mkKeyRaw ("Alice") ("p") ("n") ≠ mkKeyLower ("Alice") ("p") ("n") :=
  ⟨rfl, by decide⟩

/-- C2 (amended): update builds its identifier as the plain slash-join of
its three argument fields, with no lowercasing; that identifier coincides
with the one add builds when the fields are already lowercase, and then
update of an existing identifier overwrites it with the stamped payload
at that shared identifier. -/
theorem C2_update_key (a p n : String)
    (ha : lowerStr a = a) (hp : lowerStr p = p) (hn : lowerStr n = n) :
    mkKeyRaw a p n = mkKeyLower a p n ∧
    ∀ (st : Store) (u t : String) (m : Payload) (v : SecretVal),
      alGet st (mkKeyLower a p n) = some v →
      update st u t a p n m =
        (Except.ok (), alSet st (mkKeyLower a p n) (SecretVal.payload (stamp u t m))) := by
  have hkey : mkKeyLower a p n = mkKeyRaw a p n := by
    simp [mkKeyLower, ha, hp, hn]
  refine ⟨hkey.symm, ?_⟩
  intro st u t m v hv
  rw [hkey]
  exact update_present st u t a p n m v (by rw [← hkey]; exact hv)

/-- C2 witness: an all-lowercase triplet whose identifier is stored. -/
theorem C2_update_key_witness :
    mkKeyRaw ("alice") ("db") ("prod") = mkKeyLower ("alice") ("db") ("prod") ∧
    update [(("alice/db/prod"), SecretVal.blank)] ("u") ("t") ("alice") ("db") ("prod") [] =
      (Except.ok (), alSet [(("alice/db/prod"), SecretVal.blank)]
        (mkKeyLower ("alice") ("db") ("prod")) (SecretVal.payload (stamp ("u") ("t") []))) := by
  obtain ⟨h1, h2⟩ := C2_update_key ("alice") ("db") ("prod") rfl rfl rfl
  exact ⟨h1, h2 [(("alice/db/prod"), SecretVal.blank)] ("u") ("t") [] SecretVal.blank rfl⟩

/-- C3 counterexample: source a/p/n holds a payload and the destination
triplet (B, p, n) differs, yet after rename completes successfully, get
with the destination argument strings fails with ResourceNotFound (the
inner add stored under b/p/n while get reads B/p/n), instead of
returning the payload with refreshed audit fields. -/
theorem C3_uppercase_dest_cex :
    (rename [(("a/p/n"), SecretVal.payload [(("k"), ("v"))])]
        ("u") ("t1") ("t2") ("t3") ("a") ("p") ("n") ("B") ("p") ("n")).1 = Except.ok () ∧
    get (rename [(("a/p/n"), SecretVal.payload [(("k"), ("v"))])]
        ("u") ("t1") ("t2") ("t3") ("a") ("p") ("n") ("B") ("p") ("n")).2 ("B") ("p") ("n") =
      Except.error (Err.resourceNotFound ("B/p/n")) :=
  ⟨rfl, rfl⟩

/-- C3 (amended): for a source triplet holding a non-sentinel payload m
and a destination triplet with all-lowercase fields whose identifier
differs from the source identifier, rename succeeds, get on the
destination returns m with refreshed audit fields (the timestamp coming
from the inner add, or from the update fallback when the destination
already existed), and get on the source fails with EmptyPayload. -/
theorem C3_rename_moves (st : Store) (u t1 t2 t3 o p n o2 p2 n2 : String) (m : Payload)
    (ho : lowerStr o2 = o2) (hp : lowerStr p2 = p2) (hn : lowerStr n2 = n2)
    (hsrc : alGet st (mkKeyRaw o p n) = some (SecretVal.payload m))
    (hkne : mkKeyRaw o p n ≠ mkKeyRaw o2 p2 n2) :
    ∃ st2 tw, (tw = t2 ∨ tw = t3) ∧
      rename st u t1 t2 t3 o p n o2 p2 n2 = (Except.ok (), st2) ∧
      get st2 o2 p2 n2 = Except.ok (stamp u tw (stamp u t1 m)) ∧
      (∀ k, alGet (stamp u tw (stamp u t1 m)) k =
        if ("last_modified_time") = k then some tw
        else if ("last_modified_by") = k then some u
        else alGet m k) ∧
      get st2 o p n = Except.error (Err.emptyPayload (emptyMsg (mkKeyRaw o p n))) := by
  have hkey2 : mkKeyLower o2 p2 n2 = mkKeyRaw o2 p2 n2 := by
    simp [mkKeyLower, ho, hp, hn]
  have hne : ¬(o = o2 ∧ p = p2 ∧ n = n2) := by
    rintro ⟨e1, e2, e3⟩
    exact hkne (by rw [e1, e2, e3])
  have hkneL : mkKeyRaw o p n ≠ mkKeyLower o2 p2 n2 := by
    rw [hkey2]
    exact hkne
  cases hdest : alGet st (mkKeyRaw o2 p2 n2) with
  | none =>
    have hfree : alGet st (mkKeyLower o2 p2 n2) = none := by
      rw [hkey2]
      exact hdest
    refine ⟨_, t2, Or.inl rfl,
      rename_via_add st u t1 t2 t3 o p n o2 p2 n2 m hne hsrc hfree hkneL, ?_, ?_, ?_⟩
    · apply get_payload
      rw [alGet_alSet, if_neg hkne, alGet_alSet, if_pos hkey2]
    · intro k
      exact alGet_stamp_stamp u t1 t2 m k
    · apply get_blank
      rw [alGet_alSet, if_pos rfl]
  | some v =>
    have hpresL : alGet st (mkKeyLower o2 p2 n2) = some v := by
      rw [hkey2]
      exact hdest
    refine ⟨_, t3, Or.inr rfl,
      rename_via_update st u t1 t2 t3 o p n o2 p2 n2 m v v hne hsrc hpresL hdest hkne, ?_, ?_, ?_⟩
    · apply get_payload
      rw [alGet_alSet, if_neg hkne, alGet_alSet, if_pos rfl]
    · intro k
      exact alGet_stamp_stamp u t1 t3 m k
    · apply get_blank
      rw [alGet_alSet, if_pos rfl]

/-- C3 witness: moving a/p/n to the fresh all-lowercase b/p/n. -/
theorem C3_rename_moves_witness :
    ∃ st2 tw, (tw = ("t2") ∨ tw = ("t3")) ∧
      rename [(("a/p/n"), SecretVal.payload [(("k"), ("v"))])]
        ("u") ("t1") ("t2") ("t3") ("a") ("p") ("n") ("b") ("p") ("n") = (Except.ok (), st2) ∧
      get st2 ("b") ("p") ("n") =
        Except.ok (stamp ("u") tw (stamp ("u") ("t1") [(("k"), ("v"))])) ∧
      (∀ k, alGet (stamp ("u") tw (stamp ("u") ("t1") [(("k"), ("v"))])) k =
        if ("last_modified_time") = k then some tw
        else if ("last_modified_by") = k then some ("u")
        else alGet [(("k"), ("v"))] k) ∧
      get st2 ("a") ("p") ("n") =
        Except.error (Err.emptyPayload (emptyMsg (mkKeyRaw ("a") ("p") ("n")))) :=
  C3_rename_moves [(("a/p/n"), SecretVal.payload [(("k"), ("v"))])] ("u") ("t1") ("t2") ("t3")
    ("a") ("p") ("n") ("b") ("p") ("n") [(("k"), ("v"))] rfl rfl rfl rfl (by decide)

/-- C6: every successful write path stores the audit-stamped payload (add
at the lowercased identifier, update at the raw identifier, a successful
rename at its destination identifier, lowercased via the inner add or raw
via the update fallback), the stamp setting last_modified_by to the user
and last_modified_time to the write's timestamp; clear instead writes
exactly the bare sentinel, touching no payload fields. -/
theorem C6_audit_on_writes (st : Store) (u t o p n : String) (m : Payload) :
    (∀ st2, add st u t o p n m = (Except.ok (), st2) →
      alGet st2 (mkKeyLower o p n) = some (SecretVal.payload (stamp u t m))) ∧
    (∀ st2, update st u t o p n m = (Except.ok (), st2) →
      alGet st2 (mkKeyRaw o p n) = some (SecretVal.payload (stamp u t m))) ∧
    (∀ st2, clear st o p n = (Except.ok (), st2) →
      st2 = alSet st (mkKeyRaw o p n) SecretVal.blank) ∧
    (∀ t1 t2 t3 o2 p2 n2 m1 st2,
      alGet st (mkKeyRaw o p n) = some (SecretVal.payload m1) →
      mkKeyRaw o p n ≠ mkKeyLower o2 p2 n2 →
      mkKeyRaw o p n ≠ mkKeyRaw o2 p2 n2 →
      rename st u t1 t2 t3 o p n o2 p2 n2 = (Except.ok (), st2) →
      alGet st2 (mkKeyLower o2 p2 n2) = some (SecretVal.payload (stamp u t2 (stamp u t1 m1))) ∨
      alGet st2 (mkKeyRaw o2 p2 n2) = some (SecretVal.payload (stamp u t3 (stamp u t1 m1)))) ∧
    (∀ t1 m1, alGet (stamp u t1 m1) ("last_modified_by") = some u ∧
      alGet (stamp u t1 m1) ("last_modified_time") = some t1) := by
  refine ⟨?_, ?_, ?_, ?_, ?_⟩
  · intro st2 h
    cases halget : alGet st (mkKeyLower o p n) with
    | none =>
      rw [add_absent st u t o p n m halget] at h
      injection h with h1 h2
      subst h2
      rw [alGet_alSet, if_pos rfl]
    | some v =>
      rw [add_present st u t o p n m v halget] at h
      injection h with h1 h2
      exact Except.noConfusion h1
  · intro st2 h
    cases halget : alGet st (mkKeyRaw o p n) with
    | none =>
      rw [update_absent st u t o p n m halget] at h
      injection h with h1 h2
      exact Except.noConfusion h1
    | some v =>
      rw [update_present st u t o p n m v halget] at h
      injection h with h1 h2
      subst h2
      rw [alGet_alSet, if_pos rfl]
  · intro st2 h
    cases halget : alGet st (mkKeyRaw o p n) with
    | none =>
      rw [clear_absent st o p n halget] at h
      injection h with h1 h2
      exact Except.noConfusion h1
    | some v =>
      rw [clear_present st o p n v halget] at h
      injection h with h1 h2
      exact h2.symm
  · intro t1 t2 t3 o2 p2 n2 m1 st2 hsrc hkneL hkneR hren
    have hne : ¬(o = o2 ∧ p = p2 ∧ n = n2) := by
      rintro ⟨e1, e2, e3⟩
      exact hkneR (by rw [e1, e2, e3])
    cases hpres : alGet st (mkKeyLower o2 p2 n2) with
    | none =>
      left
      rw [rename_via_add st u t1 t2 t3 o p n o2 p2 n2 m1 hne hsrc hpres hkneL] at hren
      injection hren with h1 h2
      subst h2
      rw [alGet_alSet, if_neg hkneL, alGet_alSet, if_pos rfl]
    | some v =>
      cases hpresR : alGet st (mkKeyRaw o2 p2 n2) with
      | none =>
        rw [rename_dest_raw_missing st u t1 t2 t3 o p n o2 p2 n2 m1 v hne hsrc hpres hpresR] at hren
        injection hren with h1 h2
        exact Except.noConfusion h1
      | some w =>
        right
        rw [rename_via_update st u t1 t2 t3 o p n o2 p2 n2 m1 v w hne hsrc hpres hpresR hkneR] at hren
        injection hren with h1 h2
        subst h2
        rw [alGet_alSet, if_neg hkneR, alGet_alSet, if_pos rfl]
  · intro t1 m1
    constructor
    · rw [alGet_stamp, if_neg (by decide), if_pos rfl]
    · rw [alGet_stamp, if_pos rfl]

/-- C6 witness: each write path exercised on a small concrete store - add
on a fresh identifier, update and clear on a stored one, a successful
rename from a/p/n to b/p/n, and the audit fields of a concrete stamp. -/
theorem C6_audit_on_writes_witness :
    alGet (alSet ([] : Store) (mkKeyLower ("o") ("p") ("n"))
        (SecretVal.payload (stamp ("u") ("t") []))) (mkKeyLower ("o") ("p") ("n")) =
      some (SecretVal.payload (stamp ("u") ("t") [])) ∧
    alGet (alSet [(("o/p/n"), SecretVal.blank)] (mkKeyRaw ("o") ("p") ("n"))
        (SecretVal.payload (stamp ("u") ("t") []))) (mkKeyRaw ("o") ("p") ("n")) =
      some (SecretVal.payload (stamp ("u") ("t") [])) ∧
    alSet [(("o/p/n"), SecretVal.blank)] (mkKeyRaw ("o") ("p") ("n")) SecretVal.blank =
      alSet [(("o/p/n"), SecretVal.blank)] (mkKeyRaw ("o") ("p") ("n")) SecretVal.blank ∧
    (alGet (alSet (alSet [(("a/p/n"), SecretVal.payload [])] (mkKeyLower ("b") ("p") ("n"))
        (SecretVal.payload (stamp ("u") ("t2") (stamp ("u") ("t1") []))))
        (mkKeyRaw ("a") ("p") ("n")) SecretVal.blank) (mkKeyLower ("b") ("p") ("n")) =
      some (SecretVal.payload (stamp ("u") ("t2") (stamp ("u") ("t1") []))) ∨
     alGet (alSet (alSet [(("a/p/n"), SecretVal.payload [])] (mkKeyLower ("b") ("p") ("n"))
        (SecretVal.payload (stamp ("u") ("t2") (stamp ("u") ("t1") []))))
        (mkKeyRaw ("a") ("p") ("n")) SecretVal.blank) (mkKeyRaw ("b") ("p") ("n")) =
      some (SecretVal.payload (stamp ("u") ("t3") (stamp ("u") ("t1") [])))) ∧
    alGet (stamp ("u") ("t1") []) ("last_modified_by") = some ("u") ∧
    alGet (stamp ("u") ("t1") []) ("last_modified_time") = some ("t1") :=
  ⟨(C6_audit_on_writes [] ("u") ("t") ("o") ("p") ("n") []).1 _ rfl,
   (C6_audit_on_writes [(("o/p/n"), SecretVal.blank)] ("u") ("t") ("o") ("p") ("n") []).2.1 _ rfl,
   (C6_audit_on_writes [(("o/p/n"), SecretVal.blank)] ("u") ("t") ("o") ("p") ("n") []).2.2.1 _ rfl,
   (C6_audit_on_writes [(("a/p/n"), SecretVal.payload [])] ("u") ("t") ("a") ("p") ("n") []).2.2.2.1
     ("t1") ("t2") ("t3") ("b") ("p") ("n") [] _ rfl (by decide) (by decide) rfl,
   (C6_audit_on_writes [] ("u") ("t") ("o") ("p") ("n") []).2.2.2.2 ("t1") []⟩

/-- C8 counterexample: a backend with a mix of owners whose listing fits
in one page; search(owner=alice) propagates list_all's NextToken KeyError
instead of returning alice's triplets. -/
theorem C8_single_page_cex :
    search [[("alice/db/prod"), ("bob/db/prod")]] (some ("alice")) none none =
      Except.error Err.nextTokenMissing := rfl

/-- C8 (amended): for every backend whose listing spans at least two
pages and whose identifiers each split into exactly three slash-separated
fields, search with only the owner filter set to alice returns exactly
the stored triplets whose owner field equals alice, regardless of
protocol and name; the whole computation is a function of the identifier
listing alone, with no payload read. -/
theorem C8_search_by_owner (p0 q0 : List String) (qs : List (List String))
    (hsplit : ∀ s, s ∈ (p0 :: q0 :: qs).flatten → ∃ a b c, splitSlash s = [a, b, c]) :
    ∃ l, search (p0 :: q0 :: qs) (some ("alice")) none none = Except.ok l ∧
      ∀ t : String × String × String,
        t ∈ l ↔ (t.1 = ("alice") ∧ ∃ s, s ∈ (p0 :: q0 :: qs).flatten ∧
          splitSlash s = [t.1, t.2.1, t.2.2]) := by
  have hperm := sortStrings_perm ((p0 :: q0 :: qs).flatten)
  have hsplit2 : ∀ s, s ∈ sortStrings ((p0 :: q0 :: qs).flatten) →
      ∃ a b c, splitSlash s = [a, b, c] :=
    fun s hs => hsplit s (hperm.mem_iff.mp hs)
  obtain ⟨l, hl, hmem⟩ := searchIds_ok (some ("alice")) none none _ hsplit2
  refine ⟨l, ?_, ?_⟩
  · unfold search
    rw [list_all_ok p0 q0 qs]
    exact hl
  · intro t
    rw [hmem t]
    constructor
    · rintro ⟨s, hs, hsp, hm⟩
      have ht1 : t.1 = ("alice") := by
        simpa [matchesFilters] using hm
      exact ⟨ht1, s, hperm.mem_iff.mp hs, hsp⟩
    · rintro ⟨ht1, s, hs, hsp⟩
      refine ⟨s, hperm.mem_iff.mpr hs, hsp, ?_⟩
      simp [matchesFilters, ht1]

/-- C8 witness: a two-page backend mixing owners alice and bob. -/
theorem C8_search_by_owner_witness :
    ∃ l, search [[("alice/db/prod"), ("bob/db/x")], [("alice/ftp/y")]]
        (some ("alice")) none none = Except.ok l ∧
      ∀ t : String × String × String,
        t ∈ l ↔ (t.1 = ("alice") ∧ ∃ s,
          s ∈ ([[("alice/db/prod"), ("bob/db/x")], [("alice/ftp/y")]] : List (List String)).flatten ∧
          splitSlash s = [t.1, t.2.1, t.2.2]) := by
  apply C8_search_by_owner
  intro s hs
  have hfl : (([[("alice/db/prod"), ("bob/db/x")], [("alice/ftp/y")]] : List (List String))).flatten =
      [("alice/db/prod"), ("bob/db/x"), ("alice/ftp/y")] := rfl
  rw [hfl] at hs
  simp only [List.mem_cons, List.not_mem_nil, or_false] at hs
  rcases hs with h | h | h <;> subst h
  · exact ⟨("alice"), ("db"), ("prod"), rfl⟩
  · exact ⟨("bob"), ("db"), ("x"), rfl⟩
  · exact ⟨("alice"), ("ftp"), ("y"), rfl⟩

/-- C9 counterexample: a record with one protocol db; the lookup called
with protocol all and name prod falls into the else branch and returns
the full record, although the claim says that with a non-all name the
single named bundle is returned (here none could exist: the record has no
all protocol). -/
theorem C9_protocol_all_cex :
    load_credentials [(("c"), [(("db"), JVal.obj [(("prod"), JVal.str ("h"))])])]
        ("c") ("all") ("prod") =
      Except.ok (LoadResult.cred (JVal.obj [(("db"), JVal.obj [(("prod"), JVal.str ("h"))])])) ∧
    alGet [(("db"), JVal.obj [(("prod"), JVal.str ("h"))])] ("all") = none :=
  ⟨rfl, rfl⟩

/-- C9 (amended): for a stored record, the lookup returns the full record
whenever protocol is all (regardless of name), the protocol sub-mapping
when protocol is set and name is all, and the single named bundle when
both are set; in each case, a port field in the selected bundle is
coerced to an integer in the result. -/
theorem C9_lookup_shapes (tbl : List (String × List (String × JVal)))
    (c p n : String) (item : List (String × JVal))
    (hc : c ≠ ("all")) (hit : alGet tbl c = some item) :
    (p = ("all") → ∀ r, coercePort (JVal.obj item) = some r →
      load_credentials tbl c p n = Except.ok (LoadResult.cred r)) ∧
    (p ≠ ("all") → n = ("all") → ∀ v r, alGet item p = some v → coercePort v = some r →
      load_credentials tbl c p n = Except.ok (LoadResult.cred r)) ∧
    (p ≠ ("all") → n ≠ ("all") → ∀ sub v r, alGet item p = some (JVal.obj sub) →
      alGet sub n = some v → coercePort v = some r →
      load_credentials tbl c p n = Except.ok (LoadResult.cred r)) ∧
    (∀ kvs pv i, alGet kvs ("port") = some pv → pyInt pv = some i →
      coercePort (JVal.obj kvs) = some (JVal.obj (alSet kvs ("port") (JVal.num i)))) ∧
    (∀ kvs, alGet kvs ("port") = none → coercePort (JVal.obj kvs) = some (JVal.obj kvs)) := by
  refine ⟨?_, ?_, ?_, ?_, ?_⟩
  · intro hpall r hr
    subst hpall
    simp [load_credentials, hc, hit, selectCred, hr]
  · intro hpn hnall v r hv hr
    subst hnall
    simp [load_credentials, hc, hit, selectCred, hpn, hv, hr]
  · intro hpn hnn sub v r hsub hv hr
    simp [load_credentials, hc, hit, selectCred, hpn, hnn, hsub, hv, hr]
  · intro kvs pv i hpv hi
    simp [coercePort, hpv, hi]
  · intro kvs hnone
    simp [coercePort, hnone]

/-- C9 witness: the concrete record of the spec's scenario, exercising
the named-bundle branch with a numeric port (DynamoDB numbers), the
sub-mapping branch, the full-record branch, and both port cases. -/
theorem C9_lookup_shapes_witness :
    (("all") = ("all") → ∀ r, coercePort (JVal.obj [(("db"),
        JVal.obj [(("prod"), JVal.obj [(("host"), JVal.str ("h")), (("port"), JVal.num 5432)])])]) = some r →
      load_credentials [(("c"), [(("db"),
        JVal.obj [(("prod"), JVal.obj [(("host"), JVal.str ("h")), (("port"), JVal.num 5432)])])])]
        ("c") ("all") ("all") = Except.ok (LoadResult.cred r)) ∧
    load_credentials [(("c"), [(("db"),
        JVal.obj [(("prod"), JVal.obj [(("host"), JVal.str ("h")), (("port"), JVal.num 5432)])])])]
      ("c") ("db") ("all") =
      Except.ok (LoadResult.cred (JVal.obj [(("prod"),
        JVal.obj [(("host"), JVal.str ("h")), (("port"), JVal.num 5432)])])) ∧
    load_credentials [(("c"), [(("db"),
        JVal.obj [(("prod"), JVal.obj [(("host"), JVal.str ("h")), (("port"), JVal.num 5432)])])])]
      ("c") ("db") ("prod") =
      Except.ok (LoadResult.cred (JVal.obj [(("host"), JVal.str ("h")), (("port"), JVal.num 5432)])) ∧
    coercePort (JVal.obj [(("host"), JVal.str ("h")), (("port"), JVal.num 5432)]) =
      some (JVal.obj (alSet [(("host"), JVal.str ("h")), (("port"), JVal.num 5432)] ("port") (JVal.num 5432))) := by
  obtain ⟨h1, h2, h3, h4, h5⟩ := C9_lookup_shapes
    [(("c"), [(("db"), JVal.obj [(("prod"),
      JVal.obj [(("host"), JVal.str ("h")), (("port"), JVal.num 5432)])])])]
    ("c") ("db") ("prod")
    [(("db"), JVal.obj [(("prod"), JVal.obj [(("host"), JVal.str ("h")), (("port"), JVal.num 5432)])])]
    (by decide) rfl
  obtain ⟨g1, g2, g3, g4, g5⟩ := C9_lookup_shapes
    [(("c"), [(("db"), JVal.obj [(("prod"),
      JVal.obj [(("host"), JVal.str ("h")), (("port"), JVal.num 5432)])])])]
    ("c") ("all") ("all")
    [(("db"), JVal.obj [(("prod"), JVal.obj [(("host"), JVal.str ("h")), (("port"), JVal.num 5432)])])]
    (by decide) rfl
  obtain ⟨f1, f2, f3, f4, f5⟩ := C9_lookup_shapes
    [(("c"), [(("db"), JVal.obj [(("prod"),
      JVal.obj [(("host"), JVal.str ("h")), (("port"), JVal.num 5432)])])])]
    ("c") ("db") ("all")
    [(("db"), JVal.obj [(("prod"), JVal.obj [(("host"), JVal.str ("h")), (("port"), JVal.num 5432)])])]
    (by decide) rfl
  refine ⟨fun _ r hr => g1 rfl r hr, ?_, ?_, ?_⟩
  · exact f2 (by decide) rfl
      (JVal.obj [(("prod"), JVal.obj [(("host"), JVal.str ("h")), (("port"), JVal.num 5432)])])
      (JVal.obj [(("prod"), JVal.obj [(("host"), JVal.str ("h")), (("port"), JVal.num 5432)])])
      rfl rfl
  · exact h3 (by decide) (by decide)
      [(("prod"), JVal.obj [(("host"), JVal.str ("h")), (("port"), JVal.num 5432)])]
      (JVal.obj [(("host"), JVal.str ("h")), (("port"), JVal.num 5432)])
      (JVal.obj (alSet [(("host"), JVal.str ("h")), (("port"), JVal.num 5432)] ("port") (JVal.num 5432)))
      rfl rfl (h4 [(("host"), JVal.str ("h")), (("port"), JVal.num 5432)] (JVal.num 5432) 5432 rfl rfl)
  · exact h4 [(("host"), JVal.str ("h")), (("port"), JVal.num 5432)] (JVal.num 5432) 5432 rfl rfl

end Creds
